import Mathlib

/-!
Verification development for the DBSyncr reconciliation engine.

The Python source is shallowly embedded: Python strings are lists of
characters, pandas scalar cells are an inductive of null (NaN/None) or a
string, fallible lookups return Option.  Each definition mirrors one
function of the source (file and symbol named in its doc comment).
-/

/-- Python strings, embedded as lists of characters. -/
abbrev Str := List Char

/-- Coerce a Lean string literal to the embedding. -/
def lit (s : String) : Str := s.data

/-- A pandas scalar cell: either null (NaN/None, anything pd.isna accepts)
or a string value.  Non-string scalars enter the embedded functions only
through str(), so they are represented by their string form. -/
inductive RawValue
  | na : RawValue
  | str : Str → RawValue
deriving DecidableEq

/-- Python str(value) as used on pandas cells: nulls render as "nan"
(astype(str) of NaN), strings render as themselves. -/
def rawStr : RawValue → Str
  | RawValue.na => lit "nan"
  | RawValue.str v => v

/-- Python str.strip(): drop whitespace from both ends. -/
def pyStrip (s : Str) : Str :=
  ((s.dropWhile Char.isWhitespace).reverse.dropWhile Char.isWhitespace).reverse

/-- Python s.endswith(".0"): the last two characters are '.' then '0'. -/
def endsDot0 (s : Str) : Bool :=
  decide (s.reverse.take 2 = ['0', '.'])

/-- Python s[:-2]: drop the final two characters. -/
def dropTwo (s : Str) : Str := s.take (s.length - 2)

/-- Python s.replace('.', '').replace('-', ''): delete every dot and dash. -/
def removeDotsDashes (s : Str) : Str :=
  s.filter (fun c => !(c = '.' || c = '-'))

/-- Python s.isdigit(): nonempty and all characters are digits. -/
def pyIsDigit (s : Str) : Bool :=
  !s.isEmpty && s.all Char.isDigit

/-- The condition under which normalize_key removes a trailing ".0":
normalized.endswith('.0') and
normalized[:-2].replace('.', '').replace('-', '').isdigit(). -/
def dot0Strippable (n : Str) : Bool :=
  endsDot0 n && pyIsDigit (removeDotsDashes (dropTwo n))

/-- The ".0"-removal step of normalize_key. -/
def stripDot0 (n : Str) : Str :=
  if dot0Strippable n then dropTwo n else n

/-- UPSDataBackend.normalize_key (src/backend.py lines 521-533).
Input none stands for a null scalar (pd.isna true); some k is the string
input.  Mirrors:
  if pd.isna(key) or key in ['', 'nan', 'None']: return None
  normalized = str(key).strip()
  if normalized.endswith('.0') and
     normalized[:-2].replace('.', '').replace('-', '').isdigit():
      normalized = normalized[:-2]
  return normalized if normalized else None -/
def normalize_key (key : Option Str) : Option Str :=
  match key with
  | none => none
  | some k =>
    if k = [] ∨ k = lit "nan" ∨ k = lit "None" then none
    else if stripDot0 (pyStrip k) = [] then none
    else some (stripDot0 (pyStrip k))

example : normalize_key (some (lit "5.0")) = some (lit "5") := by decide
example : normalize_key (some (lit "  abc ")) = some (lit "abc") := by decide
example : normalize_key (some (lit "nan")) = none := by decide

/-- Dropping while a predicate fails on the head leaves the list unchanged. -/
theorem dropWhile_cons_false {p : Char → Bool} {a : Char} {t : Str} (h : p a = false) :
    (a :: t).dropWhile p = a :: t := by
  simp [List.dropWhile_cons, h]

/-- The result of dropWhile is empty or starts with a character failing p. -/
theorem dropWhile_shape (p : Char → Bool) (s : Str) :
    s.dropWhile p = [] ∨ ∃ a t, s.dropWhile p = a :: t ∧ p a = false := by
  induction s with
  | nil => exact Or.inl rfl
  | cons a t ih =>
    by_cases h : p a = true
    · rw [List.dropWhile_cons, if_pos h]; exact ih
    · have h' : p a = false := by simpa using h
      exact Or.inr ⟨a, t, dropWhile_cons_false h', h'⟩

/-- dropWhile is idempotent. -/
theorem dropWhile_idem (p : Char → Bool) (s : Str) :
    (s.dropWhile p).dropWhile p = s.dropWhile p := by
  rcases dropWhile_shape p s with h | ⟨a, t, h, ha⟩
  · rw [h]; rfl
  · rw [h]; exact dropWhile_cons_false ha

/-- dropWhile removes a prefix: the input is some prefix plus the result. -/
theorem dropWhile_decomp (p : Char → Bool) (s : Str) :
    ∃ u, u ++ s.dropWhile p = s := by
  induction s with
  | nil => exact ⟨[], rfl⟩
  | cons a t ih =>
    by_cases h : p a = true
    · obtain ⟨u, hu⟩ := ih
      exact ⟨a :: u, by rw [List.dropWhile_cons, if_pos h]; simpa using hu⟩
    · have h' : p a = false := by simpa using h
      exact ⟨[], by rw [List.nil_append, dropWhile_cons_false h']⟩

/-- A list all of whose characters fail p is unchanged by dropWhile. -/
theorem dropWhile_all_false {p : Char → Bool} {s : Str}
    (h : ∀ c ∈ s, p c = false) : s.dropWhile p = s := by
  cases s with
  | nil => rfl
  | cons a t => exact dropWhile_cons_false (h a (List.mem_cons_self a t))

/-- A string with no whitespace characters is unchanged by pyStrip. -/
theorem pyStrip_eq_self_of_no_ws {s : Str}
    (h : ∀ c ∈ s, Char.isWhitespace c = false) : pyStrip s = s := by
  unfold pyStrip
  rw [dropWhile_all_false h,
      dropWhile_all_false (fun c hc => h c (List.mem_reverse.mp hc)),
      List.reverse_reverse]

/-- dropWhile never lengthens a list. -/
theorem dropWhile_length_le (p : Char → Bool) (s : Str) :
    (s.dropWhile p).length ≤ s.length := by
  induction s with
  | nil => exact Nat.le_refl 0
  | cons a t ih =>
    by_cases h : p a = true
    · rw [List.dropWhile_cons, if_pos h]
      exact Nat.le_trans ih (Nat.le_succ _)
    · have h' : p a = false := by simpa using h
      rw [dropWhile_cons_false h']

/-- Trimming the tail of a list whose head already fails p preserves that
property of the head. -/
theorem dropWhile_reverse_trim {p : Char → Bool} {l : Str}
    (hl : l.dropWhile p = l) :
    ((l.reverse.dropWhile p).reverse).dropWhile p = (l.reverse.dropWhile p).reverse := by
  obtain ⟨pre, hpre⟩ := dropWhile_decomp p l.reverse
  cases hr : (l.reverse.dropWhile p).reverse with
  | nil => rfl
  | cons a r2 =>
    have hl2 : l = (l.reverse.dropWhile p).reverse ++ pre.reverse := by
      have h1 := congrArg List.reverse hpre
      rw [List.reverse_append, List.reverse_reverse] at h1
      exact h1.symm
    rw [hr] at hl2
    have hpa : p a = false := by
      by_cases hpa : p a = true
      · exfalso
        rw [hl2, List.cons_append, List.dropWhile_cons, if_pos hpa] at hl
        have hlen := congrArg List.length hl
        have hle := dropWhile_length_le p (r2 ++ pre.reverse)
        simp only [List.length_cons] at hlen
        omega
      · simpa using hpa
    exact dropWhile_cons_false hpa

/-- Python str.strip() is idempotent. -/
theorem pyStrip_idem (s : Str) : pyStrip (pyStrip s) = pyStrip s := by
  have hstep1 : (pyStrip s).dropWhile Char.isWhitespace = pyStrip s :=
    dropWhile_reverse_trim (dropWhile_idem Char.isWhitespace s)
  show ((((pyStrip s).dropWhile Char.isWhitespace).reverse.dropWhile
      Char.isWhitespace)).reverse = pyStrip s
  rw [hstep1]
  show ((((s.dropWhile Char.isWhitespace).reverse.dropWhile
      Char.isWhitespace).reverse.reverse).dropWhile Char.isWhitespace).reverse = pyStrip s
  rw [List.reverse_reverse, dropWhile_idem]
  rfl

/-- pyIsDigit unfolded to a logical characterization. -/
theorem pyIsDigit_iff (l : Str) :
    pyIsDigit l = true ↔ l ≠ [] ∧ ∀ c ∈ l, c.isDigit = true := by
  simp [pyIsDigit, List.all_eq_true, List.isEmpty_iff]

/-- When the ".0"-strip condition holds, the prefix is nonempty. -/
theorem dropTwo_ne_nil_of_strippable {n : Str} (h : dot0Strippable n = true) :
    dropTwo n ≠ [] := by
  intro hnil
  unfold dot0Strippable at h
  rw [Bool.and_eq_true] at h
  rw [hnil] at h
  exact absurd h.2 (by decide)

/-- stripDot0 returns the empty string only on the empty string. -/
theorem stripDot0_nil_iff (n : Str) : stripDot0 n = [] ↔ n = [] := by
  unfold stripDot0
  by_cases h : dot0Strippable n = true
  · rw [if_pos h]
    constructor
    · intro h2; exact absurd h2 (dropTwo_ne_nil_of_strippable h)
    · intro h2; subst h2; exact absurd h (by decide)
  · rw [if_neg h]

/-- A digit character is not whitespace. -/
theorem not_ws_of_digit {c : Char} (h : c.isDigit = true) :
    c.isWhitespace = false := by
  by_cases hw : c.isWhitespace = true
  · exfalso
    have hor : c = ' ' ∨ c = '\t' ∨ c = '\r' ∨ c = '\n' := by
      have h2 := hw
      unfold Char.isWhitespace at h2
      simpa [or_assoc] using h2
    rcases hor with h1 | h1 | h1 | h1 <;> subst h1 <;> exact absurd h (by decide)
  · simpa using hw

/-- When the ".0"-strip condition holds, the kept prefix has no whitespace. -/
theorem strippable_chars {n : Str} (h : dot0Strippable n = true) :
    ∀ c ∈ dropTwo n, c.isWhitespace = false := by
  intro c hc
  unfold dot0Strippable at h
  rw [Bool.and_eq_true] at h
  have hd := (pyIsDigit_iff _).mp h.2
  by_cases hq : (!(c = '.' || c = '-')) = true
  · have hmem : c ∈ removeDotsDashes (dropTwo n) := List.mem_filter.mpr ⟨hc, hq⟩
    exact not_ws_of_digit (hd.2 c hmem)
  · have hcd : c = '.' ∨ c = '-' := or_iff_not_imp_left.mpr (by simpa using hq)
    rcases hcd with h1 | h1 <;> subst h1 <;> rfl

/-- The combined strip-and-dot0-removal step is pyStrip-stable. -/
theorem pyStrip_stripDot0_pyStrip (k : Str) :
    pyStrip (stripDot0 (pyStrip k)) = stripDot0 (pyStrip k) := by
  unfold stripDot0
  by_cases h : dot0Strippable (pyStrip k) = true
  · rw [if_pos h]
    exact pyStrip_eq_self_of_no_ws (strippable_chars h)
  · rw [if_neg h]
    exact pyStrip_idem k

/-- Inversion for a successful normalize_key on a string input. -/
theorem normalize_key_eq_some {k w : Str} (h : normalize_key (some k) = some w) :
    w = stripDot0 (pyStrip k) ∧ stripDot0 (pyStrip k) ≠ [] ∧
    ¬(k = [] ∨ k = lit "nan" ∨ k = lit "None") := by
  simp only [normalize_key] at h
  by_cases h1 : k = [] ∨ k = lit "nan" ∨ k = lit "None"
  · rw [if_pos h1] at h; exact absurd h (by simp)
  · rw [if_neg h1] at h
    by_cases h2 : stripDot0 (pyStrip k) = []
    · rw [if_pos h2] at h; exact absurd h (by simp)
    · rw [if_neg h2] at h
      exact ⟨(Option.some.inj h).symm, h2, h1⟩

/-- C1 counterexample: normalization is not idempotent.  For the raw value
"5.0.0" one application yields "5.0" (the condition strips dots and dashes
before the digit test, so the "5.0" prefix passes), and a second
application strips again, yielding "5". -/
theorem normalize_key_idem_cex :
    normalize_key (normalize_key (some (lit "5.0.0"))) ≠
      normalize_key (some (lit "5.0.0")) := by decide

/-- C1 amended: normalize_key is idempotent on every output that is not the
literal string "nan" or "None" and does not itself still end in a
strippable ".0"; on such outputs a second application returns the key
unchanged. -/
theorem normalize_key_idem_amended (v : Option Str) (w : Str)
    (h : normalize_key v = some w) (h1 : w ≠ lit "nan") (h2 : w ≠ lit "None")
    (h3 : dot0Strippable w = false) :
    normalize_key (some w) = some w := by
  cases v with
  | none => simp [normalize_key] at h
  | some k =>
    obtain ⟨hw, hne, -⟩ := normalize_key_eq_some h
    have hstable : pyStrip w = w := by
      rw [hw]; exact pyStrip_stripDot0_pyStrip k
    have hwne : w ≠ [] := by rw [hw]; exact hne
    simp only [normalize_key]
    rw [if_neg (by push_neg; exact ⟨hwne, h1, h2⟩), hstable]
    have hsd : stripDot0 w = w := by
      unfold stripDot0
      rw [if_neg (by simp [h3])]
    rw [hsd, if_neg hwne]

/-- Witness for the amended C1 theorem at the concrete stable key "abc". -/
theorem normalize_key_idem_amended_witness :
    normalize_key (some (lit "abc")) = some (lit "abc") :=
  normalize_key_idem_amended (some (lit "abc")) (lit "abc")
    (by decide) (by decide) (by decide) (by decide)

/-- C2 counterexample: the null-likeness test is an exact match on '',
'nan', 'None' (no case folding, no pre-trim), so "NaN" and "none" do NOT
normalize to None as the claim states. -/
theorem normalize_key_null_handling_cex :
    normalize_key (some (lit "NaN")) = some (lit "NaN") ∧
    normalize_key (some (lit "none")) = some (lit "none") := by decide

/-- C2 amended: normalize_key returns None exactly on null scalars, the
exact strings "nan" and "None", and strings that trim to empty (including
"" itself); every other input, including "NaN" and "none", yields a
string. -/
theorem normalize_key_null_inputs_amended :
    normalize_key none = none ∧
    ∀ s : Str, (normalize_key (some s) = none ↔
      s = lit "nan" ∨ s = lit "None" ∨ pyStrip s = []) := by
  refine ⟨rfl, fun s => ?_⟩
  simp only [normalize_key]
  by_cases h1 : s = [] ∨ s = lit "nan" ∨ s = lit "None"
  · rw [if_pos h1]
    rcases h1 with h | h | h <;> subst h <;> decide
  · rw [if_neg h1]
    push_neg at h1
    by_cases h2 : stripDot0 (pyStrip s) = []
    · rw [if_pos h2]
      have h3 : pyStrip s = [] := (stripDot0_nil_iff _).mp h2
      simp [h3]
    · rw [if_neg h2]
      constructor
      · intro hc; exact absurd hc (by simp)
      · intro hr
        exfalso
        rcases hr with h | h | h
        · exact h1.2.1 h
        · exact h1.2.2 h
        · exact h2 (by rw [h]; rfl)

/-- The ".0"-removal condition exactly as claim C7 states it: the prefix
before ".0", optionally after one leading '-', consists entirely of
digits.  (This is the condition clean_primary_link_formatting uses,
src/backend.py lines 421-438.) -/
def claimDot0CondC7 (n : Str) : Bool :=
  endsDot0 n &&
    (pyIsDigit (dropTwo n) ||
      (match dropTwo n with
       | '-' :: rest => pyIsDigit rest
       | _ => false))

/-- The normalization result claim C7 predicts for a non-null-like input. -/
def claimTrimResultC7 (s : Str) : Str :=
  if claimDot0CondC7 (pyStrip s) then dropTwo (pyStrip s) else pyStrip s

/-- C7 counterexample: on "1.2.0" the claim predicts the ".0" is kept
(the prefix "1.2" contains an inner dot), but normalize_key deletes every
'.' and '-' before the digit test and therefore strips, returning "1.2". -/
theorem normalize_key_dot0_cex :
    normalize_key (some (lit "1.2.0")) = some (lit "1.2") ∧
    claimTrimResultC7 (lit "1.2.0") = lit "1.2.0" ∧
    normalize_key (some (lit "1.2.0")) ≠ some (claimTrimResultC7 (lit "1.2.0")) := by
  decide

/-- The amended ".0"-removal condition, stated declaratively: the string
ends in ".0" and the prefix, after deleting every '.' and '-', is nonempty
and all digits. -/
def AmendedDot0CondC7 (n : Str) : Prop :=
  endsDot0 n = true ∧ removeDotsDashes (dropTwo n) ≠ [] ∧
    ∀ c ∈ removeDotsDashes (dropTwo n), c.isDigit = true

/-- The declarative amended condition coincides with the code's test. -/
theorem amendedDot0CondC7_iff (n : Str) :
    AmendedDot0CondC7 n ↔ dot0Strippable n = true := by
  unfold AmendedDot0CondC7 dot0Strippable
  rw [Bool.and_eq_true, pyIsDigit_iff]

/-- C7 amended: for every input that is not null-like (not null, and not
exactly "", "nan", "None") and does not trim to empty, normalize_key
returns the trimmed string, with the trailing ".0" removed exactly when
the prefix, after deleting every '.' and '-', is nonempty and all
digits. -/
theorem normalize_key_dot0_amended (s : Str)
    (hs : ¬(s = [] ∨ s = lit "nan" ∨ s = lit "None")) (hns : pyStrip s ≠ []) :
    (AmendedDot0CondC7 (pyStrip s) →
      normalize_key (some s) = some (dropTwo (pyStrip s))) ∧
    (¬AmendedDot0CondC7 (pyStrip s) →
      normalize_key (some s) = some (pyStrip s)) := by
  constructor
  · intro hc
    have hb := (amendedDot0CondC7_iff _).mp hc
    simp only [normalize_key]
    rw [if_neg hs]
    have hsd : stripDot0 (pyStrip s) = dropTwo (pyStrip s) := by
      unfold stripDot0; rw [if_pos hb]
    rw [hsd, if_neg (dropTwo_ne_nil_of_strippable hb)]
  · intro hc
    have hb : ¬(dot0Strippable (pyStrip s) = true) := fun h =>
      hc ((amendedDot0CondC7_iff _).mpr h)
    simp only [normalize_key]
    have hsd : stripDot0 (pyStrip s) = pyStrip s := by
      unfold stripDot0; rw [if_neg hb]
    rw [if_neg hs, hsd, if_neg hns]

/-- Witness for the amended C7 theorem: "12.0" strips to "12". -/
theorem normalize_key_dot0_amended_witness :
    normalize_key (some (lit "12.0")) = some (lit "12") := by
  have h := (normalize_key_dot0_amended (lit "12.0") (by decide) (by decide)).1
    ((amendedDot0CondC7_iff _).mpr (by decide))
  rw [h]; decide

/-- C10: normalize_key never returns the empty string: every successful
normalization is a nonempty string. -/
theorem normalize_key_never_blank (v : Option Str) (w : Str)
    (h : normalize_key v = some w) : w ≠ [] := by
  cases v with
  | none => simp [normalize_key] at h
  | some k =>
    obtain ⟨hw, hne, -⟩ := normalize_key_eq_some h
    rw [hw]; exact hne

/-- Witness for C10 at the concrete input "x". -/
theorem normalize_key_never_blank_witness : lit "x" ≠ ([] : Str) :=
  normalize_key_never_blank (some (lit "x")) (lit "x") (by decide)

/-- One record of a side's raw collection: the primary-link column value
plus the remaining columns as an association list.  DataFrame columns are
modeled per-row; in a real frame every row carries the same column set. -/
structure SideRow where
  primary : RawValue
  fields : List (Str × RawValue)
deriving DecidableEq

/-- The NormalizedKey computed for a row in create__combined_data:
df[primary].astype(str).apply(self.normalize_key). -/
def normKeyRow (r : SideRow) : Option Str :=
  normalize_key (some (rawStr r.primary))

/-- Pair each row with its NormalizedKey, dropping rows whose key is None
(df = df[df['NormalizedKey'].notna()]). -/
def keyRows (rows : List SideRow) : List (Str × SideRow) :=
  rows.filterMap (fun r => (normKeyRow r).map (fun k => (k, r)))

/-- drop_duplicates(subset=['NormalizedKey'], keep='first'), structurally
recursive on the list with an accumulator of keys already seen. -/
def dedupByKeyAux (seen : List Str) : List (Str × SideRow) → List (Str × SideRow)
  | [] => []
  | p :: t =>
    if p.1 ∈ seen then dedupByKeyAux seen t
    else p :: dedupByKeyAux (p.1 :: seen) t

/-- Keep the first row for each NormalizedKey. -/
def dedupByKey (l : List (Str × SideRow)) : List (Str × SideRow) :=
  dedupByKeyAux [] l

/-- A side's preparation in create__combined_data: normalize, filter out
None keys, deduplicate keeping the first occurrence. -/
def keyedRows (rows : List SideRow) : List (Str × SideRow) :=
  dedupByKey (keyRows rows)

/-- One row of the Combined View: the join key, and the contributing row
of each side when present.  The renamed-and-prefixed columns of the real
frame are recovered from the stored side rows; an absent side means all
of that side's cells (including its Key column) are null. -/
structure CombRow where
  normKey : Str
  a : Option SideRow
  b : Option SideRow
deriving DecidableEq

/-- pd.merge(ns_df, sf_df, on='NormalizedKey', how='outer') for frames
whose keys are unique per side: left rows (carrying their match when one
exists) followed by unmatched right rows. -/
def outerMerge (ra rb : List (Str × SideRow)) : List CombRow :=
  ra.map (fun p =>
    CombRow.mk p.1 (some p.2) ((rb.find? (fun q => decide (q.1 = p.1))).map (fun q => q.2)))
  ++ (rb.filter (fun q => !(ra.any (fun p => decide (p.1 = q.1))))).map (fun q =>
    CombRow.mk q.1 none (some q.2))

/-- UPSDataBackend.create__combined_data (src/backend.py lines 440-519).
An input of none covers both "that side's data is None" and "its primary
link column is absent" (the code leaves the prepared frame as None in both
cases).  When only one side is prepared, the other side's Key column is
set entirely to None; when neither is, the result is empty. -/
def create_combined_data (ns sf : Option (List SideRow)) : List CombRow :=
  match ns, sf with
  | none, none => []
  | some a, none => (keyedRows a).map (fun p => CombRow.mk p.1 (some p.2) none)
  | none, some b => (keyedRows b).map (fun p => CombRow.mk p.1 none (some p.2))
  | some a, some b => outerMerge (keyedRows a) (keyedRows b)

/-- The value stored in the side-A Key column of a combined row: the
original primary value when side A contributed, else null. -/
def aKeyCell (row : CombRow) : RawValue :=
  match row.a with
  | some r => r.primary
  | none => RawValue.na

/-- The value stored in the side-B Key column of a combined row. -/
def bKeyCell (row : CombRow) : RawValue :=
  match row.b with
  | some r => r.primary
  | none => RawValue.na

/-- Deduplication only keeps pairs of the input list. -/
theorem mem_dedupByKeyAux {p : Str × SideRow} :
    ∀ (seen : List Str) (l : List (Str × SideRow)),
      p ∈ dedupByKeyAux seen l → p ∈ l := by
  intro seen l
  induction l generalizing seen with
  | nil => intro h; exact absurd h (by simp [dedupByKeyAux])
  | cons q t ih =>
    intro h
    simp only [dedupByKeyAux] at h
    by_cases hq : q.1 ∈ seen
    · rw [if_pos hq] at h
      exact List.mem_cons_of_mem q (ih seen h)
    · rw [if_neg hq] at h
      rcases List.mem_cons.mp h with h1 | h1
      · exact h1 ▸ List.mem_cons_self q t
      · exact List.mem_cons_of_mem q (ih (q.1 :: seen) h1)

/-- Every pair surviving a side's preparation carries that row's
NormalizedKey, which is in particular non-None. -/
theorem keyedRows_key {k : Str} {r : SideRow} {rows : List SideRow}
    (h : (k, r) ∈ keyedRows rows) : normKeyRow r = some k := by
  have h2 : (k, r) ∈ keyRows rows := mem_dedupByKeyAux [] (keyRows rows) h
  unfold keyRows at h2
  rcases List.mem_filterMap.mp h2 with ⟨x, -, hx⟩
  rcases Option.map_eq_some'.mp hx with ⟨k', hk', hpair⟩
  cases hpair
  exact hk'

/-- A row whose NormalizedKey exists has a non-null primary value. -/
theorem primary_ne_na_of_keyed {k : Str} {r : SideRow}
    (h : normKeyRow r = some k) : r.primary ≠ RawValue.na := by
  intro hna
  unfold normKeyRow at h
  rw [hna] at h
  have hn : normalize_key (some (rawStr RawValue.na)) = none := by decide
  rw [hn] at h
  exact Option.noConfusion h

/-- Projection form of keyedRows_key. -/
theorem keyedRows_key_fst {p : Str × SideRow} {rows : List SideRow}
    (h : p ∈ keyedRows rows) : normKeyRow p.2 = some p.1 := by
  obtain ⟨k, r⟩ := p
  exact keyedRows_key h

/-- C3: merge totality.  Every row of the Combined View, for any inputs
including the one-sided degraded cases, has a non-null value in at least
one of the two side Key columns. -/
theorem combined_key_totality (ns sf : Option (List SideRow)) (row : CombRow)
    (h : row ∈ create_combined_data ns sf) :
    aKeyCell row ≠ RawValue.na ∨ bKeyCell row ≠ RawValue.na := by
  cases ns with
  | none =>
    cases sf with
    | none => exact absurd h (by simp [create_combined_data])
    | some b =>
      simp only [create_combined_data] at h
      rcases List.mem_map.mp h with ⟨p, hp, hrow⟩
      refine Or.inr ?_
      rw [← hrow]
      exact primary_ne_na_of_keyed (keyedRows_key_fst hp)
  | some a =>
    cases sf with
    | none =>
      simp only [create_combined_data] at h
      rcases List.mem_map.mp h with ⟨p, hp, hrow⟩
      refine Or.inl ?_
      rw [← hrow]
      exact primary_ne_na_of_keyed (keyedRows_key_fst hp)
    | some b =>
      simp only [create_combined_data, outerMerge] at h
      rcases List.mem_append.mp h with h1 | h1
      · rcases List.mem_map.mp h1 with ⟨p, hp, hrow⟩
        refine Or.inl ?_
        rw [← hrow]
        exact primary_ne_na_of_keyed (keyedRows_key_fst hp)
      · rcases List.mem_map.mp h1 with ⟨q, hq, hrow⟩
        refine Or.inr ?_
        rw [← hrow]
        exact primary_ne_na_of_keyed (keyedRows_key_fst (List.mem_of_mem_filter hq))

/-- Witness for C3 on a concrete one-sided input. -/
theorem combined_key_totality_witness :
    aKeyCell (CombRow.mk (lit "1") (some (SideRow.mk (RawValue.str (lit "1")) [])) none)
        ≠ RawValue.na ∨
    bKeyCell (CombRow.mk (lit "1") (some (SideRow.mk (RawValue.str (lit "1")) [])) none)
        ≠ RawValue.na :=
  combined_key_totality (some [SideRow.mk (RawValue.str (lit "1")) []]) none
    (CombRow.mk (lit "1") (some (SideRow.mk (RawValue.str (lit "1")) [])) none)
    (by decide)

/-- Dropping a record whose NormalizedKey is None does not change the
paired-and-filtered rows of a side. -/
theorem keyRows_drop_bad {bad : SideRow} (hbad : normKeyRow bad = none)
    (l1 l2 : List SideRow) :
    keyRows (l1 ++ bad :: l2) = keyRows (l1 ++ l2) := by
  simp [keyRows, List.filterMap_append, List.filterMap_cons, hbad]

/-- C4 amended: in the backend merge engine (create__combined_data)
identity-less records are excluded: every side row contributing to a
combined row has a NormalizedKey (equal to the row's join key), and
inserting a record whose NormalizedKey is None anywhere in either input
leaves the Combined View unchanged.  (The DataService._combine_data
variant instead keys null identifiers by the empty string and keeps
them — see the counterexample.) -/
theorem combined_excludes_identityless
    (ns sf : Option (List SideRow)) (row : CombRow) (r : SideRow)
    (as1 as2 bs1 bs2 : List SideRow) (bad : SideRow)
    (hbad : normKeyRow bad = none) :
    (row ∈ create_combined_data ns sf → row.a = some r →
      normKeyRow r = some row.normKey) ∧
    (row ∈ create_combined_data ns sf → row.b = some r →
      normKeyRow r = some row.normKey) ∧
    create_combined_data (some (as1 ++ bad :: as2)) sf
      = create_combined_data (some (as1 ++ as2)) sf ∧
    create_combined_data ns (some (bs1 ++ bad :: bs2))
      = create_combined_data ns (some (bs1 ++ bs2)) := by
  refine ⟨?_, ?_, ?_, ?_⟩
  · intro h ha
    cases ns with
    | none =>
      cases sf with
      | none => exact absurd h (by simp [create_combined_data])
      | some b =>
        simp only [create_combined_data] at h
        rcases List.mem_map.mp h with ⟨p, hp, hrow⟩
        rw [← hrow] at ha
        exact Option.noConfusion ha
    | some a =>
      cases sf with
      | none =>
        simp only [create_combined_data] at h
        rcases List.mem_map.mp h with ⟨p, hp, hrow⟩
        rw [← hrow] at ha ⊢
        cases Option.some.inj ha
        exact keyedRows_key_fst hp
      | some b =>
        simp only [create_combined_data, outerMerge] at h
        rcases List.mem_append.mp h with h1 | h1
        · rcases List.mem_map.mp h1 with ⟨p, hp, hrow⟩
          rw [← hrow] at ha ⊢
          cases Option.some.inj ha
          exact keyedRows_key_fst hp
        · rcases List.mem_map.mp h1 with ⟨q, hq, hrow⟩
          rw [← hrow] at ha
          exact Option.noConfusion ha
  · intro h hb
    cases ns with
    | none =>
      cases sf with
      | none => exact absurd h (by simp [create_combined_data])
      | some b =>
        simp only [create_combined_data] at h
        rcases List.mem_map.mp h with ⟨p, hp, hrow⟩
        rw [← hrow] at hb ⊢
        cases Option.some.inj hb
        exact keyedRows_key_fst hp
    | some a =>
      cases sf with
      | none =>
        simp only [create_combined_data] at h
        rcases List.mem_map.mp h with ⟨p, hp, hrow⟩
        rw [← hrow] at hb
        exact Option.noConfusion hb
      | some b =>
        simp only [create_combined_data, outerMerge] at h
        rcases List.mem_append.mp h with h1 | h1
        · rcases List.mem_map.mp h1 with ⟨p, hp, hrow⟩
          rw [← hrow] at hb ⊢
          rcases Option.map_eq_some'.mp hb with ⟨q, hq, hq2⟩
          have hqmem := List.mem_of_find?_eq_some hq
          have hqpred := List.find?_some hq
          have hq1 : q.1 = p.1 := of_decide_eq_true hqpred
          rw [← hq2, ← hq1]
          exact keyedRows_key_fst hqmem
        · rcases List.mem_map.mp h1 with ⟨q, hq, hrow⟩
          rw [← hrow] at hb ⊢
          cases Option.some.inj hb
          exact keyedRows_key_fst (List.mem_of_mem_filter hq)
  · have hkr := keyRows_drop_bad hbad as1 as2
    cases sf with
    | none => simp [create_combined_data, keyedRows, hkr]
    | some b => simp [create_combined_data, outerMerge, keyedRows, hkr]
  · have hkr := keyRows_drop_bad hbad bs1 bs2
    cases ns with
    | none => simp [create_combined_data, keyedRows, hkr]
    | some a => simp [create_combined_data, outerMerge, keyedRows, hkr]

/-- Witness for C4: inserting the identity-less record (null primary)
into a concrete input leaves the Combined View unchanged. -/
theorem combined_excludes_identityless_witness :
    create_combined_data (some [SideRow.mk RawValue.na []]) none
      = create_combined_data (some []) none := by
  have h := combined_excludes_identityless none none (CombRow.mk [] none none)
    (SideRow.mk RawValue.na []) [] [] [] [] (SideRow.mk RawValue.na []) (by decide)
  have h2 := h.2.2.1
  simpa using h2

/-- The system argument of update_record: 'netsuite', 'shopify' or 'both'. -/
inductive TargetSystem
  | netsuite : TargetSystem
  | shopify : TargetSystem
  | both : TargetSystem
deriving DecidableEq

/-- The on-the-fly key cleanup used by find_record_by_linking and
update_record: astype(str).str.replace(r'\.0$', '', regex=True), i.e. one
anchored trailing ".0" removed. -/
def strip0 (s : Str) : Str :=
  if endsDot0 s then dropTwo s else s

/-- Reading one named column of a row. -/
def lookupField (r : SideRow) (f : Str) : Option RawValue :=
  (r.fields.find? (fun p => decide (p.1 = f))).map (fun p => p.2)

/-- The secondary-link fallback loop of find_record_by_linking: for each
configured secondary field of this side (None when not configured for the
side), return the first row whose value in that column equals the link
value as a string. -/
def findSecondary (rs : List SideRow) (lv : Str) :
    List (Option Str) → Option SideRow
  | [] => none
  | none :: rest => findSecondary rs lv rest
  | some f :: rest =>
    match rs.find? (fun r =>
        match lookupField r f with
        | some v => decide (rawStr v = lv)
        | none => false) with
    | some r => some r
    | none => findSecondary rs lv rest

/-- UPSDataBackend.find_record_by_linking (src/backend.py lines 535-566):
match the ".0"-stripped primary value first, then fall back to the
secondary link fields when enabled. -/
def find_record_by_linking (rows : Option (List SideRow)) (lv : Str)
    (secondaries : List (Option Str)) (useSecondary : Bool) : Option SideRow :=
  match rows with
  | none => none
  | some rs =>
    match rs.find? (fun r => decide (strip0 (rawStr r.primary) = lv)) with
    | some r => some r
    | none => if useSecondary then findSecondary rs lv secondaries else none

/-- One entry of the field_mappings configuration: the per-side column
names (None when the side has no mapped column, covering the falsy check
on ns_field / sf_field). -/
structure FieldMapping where
  netsuite_field : Option Str
  shopify_field : Option Str
deriving DecidableEq

/-- The in-memory state of UPSDataBackend that update_record touches:
the two raw collections, the combined view, and the mappings
configuration. -/
structure BackendState where
  netsuite_data : Option (List SideRow)
  shopify_data : Option (List SideRow)
  combined_data : List CombRow
  field_mappings : List (Str × FieldMapping)
  secondary_links : List (Option Str × Option Str)
  fallback_to_secondary : Bool
deriving DecidableEq

/-- ns_field in df.columns: in a DataFrame all rows carry the column. -/
def colPresent (rs : List SideRow) (f : Str) : Bool :=
  rs.all (fun r => (lookupField r f).isSome)

/-- df.loc[mask, field] = value for one masked row. -/
def setField (r : SideRow) (f : Str) (v : RawValue) : SideRow :=
  SideRow.mk r.primary (r.fields.map (fun p => if p.1 = f then (p.1, v) else p))

/-- One side's branch of update_record: when the system selector enables
this side, its data is loaded and the mapping names a column, locate the
record, then write the value into every row matched by the
".0"-stripped-primary mask (success exactly when the mask is nonempty and
the column exists). -/
def updateSide (rows : Option (List SideRow)) (enabled : Bool)
    (sideField : Option Str) (lv : Str) (v : RawValue)
    (secondaries : List (Option Str)) (useSec : Bool) :
    Option (List SideRow) × Bool :=
  match rows, enabled, sideField with
  | some rs, true, some f =>
    match find_record_by_linking (some rs) lv secondaries useSec with
    | some _ =>
      if (rs.any (fun r => decide (strip0 (rawStr r.primary) = lv)))
          && colPresent rs f then
        (some (rs.map (fun r =>
          if strip0 (rawStr r.primary) = lv then setField r f v else r)), true)
      else (some rs, false)
    | none => (some rs, false)
  | _, _, _ => (rows, false)

/-- The tail of update_record: on any per-side success the combined view
is recreated from the new collections (self.create__combined_data()) and
True is returned; otherwise the state keeps its old combined view. -/
def applyUpdate (st : BackendState) (nsRes sfRes : Option (List SideRow) × Bool) :
    BackendState × Bool :=
  if nsRes.2 || sfRes.2 then
    (BackendState.mk nsRes.1 sfRes.1 (create_combined_data nsRes.1 sfRes.1)
      st.field_mappings st.secondary_links st.fallback_to_secondary, true)
  else
    (BackendState.mk nsRes.1 sfRes.1 st.combined_data
      st.field_mappings st.secondary_links st.fallback_to_secondary, false)

/-- UPSDataBackend.update_record (src/backend.py lines 627-680).  The
returned Bool is the success flag of the (success, message) pair. -/
def update_record (st : BackendState) (lv : Str) (field : Str) (v : RawValue)
    (system : TargetSystem) : BackendState × Bool :=
  match st.field_mappings.find? (fun p => decide (p.1 = field)) with
  | none => (st, false)
  | some pm =>
    applyUpdate st
      (updateSide st.netsuite_data
        (decide (system = TargetSystem.both ∨ system = TargetSystem.netsuite))
        pm.2.netsuite_field lv v
        (st.secondary_links.map (fun p => p.1)) st.fallback_to_secondary)
      (updateSide st.shopify_data
        (decide (system = TargetSystem.both ∨ system = TargetSystem.shopify))
        pm.2.shopify_field lv v
        (st.secondary_links.map (fun p => p.2)) st.fallback_to_secondary)

/-- A disabled side branch leaves that side's data untouched. -/
theorem updateSide_disabled (rows : Option (List SideRow)) (sideField : Option Str)
    (lv : Str) (v : RawValue) (secondaries : List (Option Str)) (useSec : Bool) :
    updateSide rows false sideField lv v secondaries useSec = (rows, false) := by
  cases rows <;> cases sideField <;> rfl

/-- applyUpdate installs exactly the per-side results as the new raw
collections. -/
theorem applyUpdate_data (st : BackendState) (nsRes sfRes : Option (List SideRow) × Bool) :
    (applyUpdate st nsRes sfRes).1.netsuite_data = nsRes.1 ∧
    (applyUpdate st nsRes sfRes).1.shopify_data = sfRes.1 := by
  unfold applyUpdate
  split <;> exact ⟨rfl, rfl⟩

/-- C8: update independence.  An update targeting only side A never
changes side B's raw collection, and an update targeting only side B
never changes side A's raw collection, for every state, key, field and
value. -/
theorem update_record_independence (st : BackendState) (lv field : Str) (v : RawValue) :
    (update_record st lv field v TargetSystem.netsuite).1.shopify_data
        = st.shopify_data ∧
    (update_record st lv field v TargetSystem.shopify).1.netsuite_data
        = st.netsuite_data := by
  constructor
  · unfold update_record
    cases st.field_mappings.find? (fun p => decide (p.1 = field)) with
    | none => rfl
    | some pm =>
      dsimp only
      have hd : (decide (TargetSystem.netsuite = TargetSystem.both ∨
          TargetSystem.netsuite = TargetSystem.shopify)) = false := by decide
      rw [hd, updateSide_disabled]
      exact (applyUpdate_data st _ _).2
  · unfold update_record
    cases st.field_mappings.find? (fun p => decide (p.1 = field)) with
    | none => rfl
    | some pm =>
      dsimp only
      have hd : (decide (TargetSystem.shopify = TargetSystem.both ∨
          TargetSystem.shopify = TargetSystem.netsuite)) = false := by decide
      rw [hd, updateSide_disabled]
      exact (applyUpdate_data st _ _).1

/-- A concrete side record used to exercise update_record. -/
def cexRow : SideRow :=
  SideRow.mk (RawValue.str (lit "1")) [(lit "wt", RawValue.str (lit "5"))]

/-- A concrete consistent backend state: one NetSuite record, no Shopify
data, combined view freshly merged, one mapped field "weight". -/
def cexState : BackendState :=
  BackendState.mk (some [cexRow]) none
    (create_combined_data (some [cexRow]) none)
    [(lit "weight", FieldMapping.mk (some (lit "wt")) (some (lit "wt")))]
    [] true

/-- C5 counterexample: update_record recreates the combined view itself
on success (self.create__combined_data() in the success branch), so after
this successful update the engine's combined view differs from the one
held before the call — it is not left unchanged as the claim states. -/
theorem update_record_frame_cex :
    (update_record cexState (lit "1") (lit "weight")
        (RawValue.str (lit "9")) TargetSystem.netsuite).2 = true ∧
    (update_record cexState (lit "1") (lit "weight")
        (RawValue.str (lit "9")) TargetSystem.netsuite).1.combined_data
      ≠ cexState.combined_data := by decide

/-- On success, applyUpdate stores the freshly merged view. -/
theorem applyUpdate_success (st : BackendState) (a b : Option (List SideRow) × Bool)
    (h : (applyUpdate st a b).2 = true) :
    (applyUpdate st a b).1.combined_data =
      create_combined_data (applyUpdate st a b).1.netsuite_data
        (applyUpdate st a b).1.shopify_data := by
  by_cases hc : (a.2 || b.2) = true
  · unfold applyUpdate
    rw [if_pos hc]
  · unfold applyUpdate at h
    rw [if_neg hc] at h
    exact absurd h (by simp)

/-- C5 amended: after any successful update_record call the engine has
already recomputed the Combined View: the stored combined data equals the
merge of the post-update raw collections, so callers need not re-invoke
the merge engine. -/
theorem update_record_recomputes (st : BackendState) (lv field : Str)
    (v : RawValue) (system : TargetSystem)
    (h : (update_record st lv field v system).2 = true) :
    (update_record st lv field v system).1.combined_data =
      create_combined_data
        (update_record st lv field v system).1.netsuite_data
        (update_record st lv field v system).1.shopify_data := by
  cases hf : st.field_mappings.find? (fun p => decide (p.1 = field)) with
  | none =>
    unfold update_record at h
    rw [hf] at h
    exact absurd h (by simp)
  | some pm =>
    have hu : update_record st lv field v system = applyUpdate st
        (updateSide st.netsuite_data
          (decide (system = TargetSystem.both ∨ system = TargetSystem.netsuite))
          pm.2.netsuite_field lv v
          (st.secondary_links.map (fun p => p.1)) st.fallback_to_secondary)
        (updateSide st.shopify_data
          (decide (system = TargetSystem.both ∨ system = TargetSystem.shopify))
          pm.2.shopify_field lv v
          (st.secondary_links.map (fun p => p.2)) st.fallback_to_secondary) := by
      unfold update_record
      rw [hf]
    rw [hu] at h ⊢
    exact applyUpdate_success st _ _ h

/-- Witness for the amended C5 theorem at the concrete state. -/
theorem update_record_recomputes_witness :
    (update_record cexState (lit "1") (lit "weight")
        (RawValue.str (lit "9")) TargetSystem.netsuite).1.combined_data =
      create_combined_data
        (update_record cexState (lit "1") (lit "weight")
            (RawValue.str (lit "9")) TargetSystem.netsuite).1.netsuite_data
        (update_record cexState (lit "1") (lit "weight")
            (RawValue.str (lit "9")) TargetSystem.netsuite).1.shopify_data :=
  update_record_recomputes cexState (lit "1") (lit "weight")
    (RawValue.str (lit "9")) TargetSystem.netsuite (by decide)

/-- The per-value key computation of get_unmatched_analysis
(src/src/services/data_service.py lines 263-304):
dropna().astype(str).str.strip().str.upper() — None for null values, the
trimmed uppercased string form otherwise. -/
def upperStripKey (r : RawValue) : Option Str :=
  match r with
  | RawValue.na => none
  | RawValue.str v => some ((pyStrip v).map Char.toUpper)

/-- set(...) of the per-side keys, represented as a duplicate-free list. -/
def keySetOf (rows : List RawValue) : List Str :=
  (rows.filterMap upperStripKey).dedup

/-- db1_keys.intersection(db2_keys). -/
def matchedKeys (db1 db2 : List RawValue) : List Str :=
  (keySetOf db1).filter (fun k => decide (k ∈ keySetOf db2))

/-- Set difference dbA_keys - dbB_keys. -/
def onlyKeys (dbA dbB : List RawValue) : List Str :=
  (keySetOf dbA).filter (fun k => decide (k ∉ keySetOf dbB))

/-- Python string comparison: lexicographic on code points. -/
def strLe : Str → Str → Bool
  | [], _ => true
  | _ :: _, [] => false
  | c :: cs, d :: ds => if c = d then strLe cs ds else decide (c < d)

/-- Insertion into a sorted list of keys. -/
def insertSorted (x : Str) : List Str → List Str
  | [] => [x]
  | y :: ys => if strLe x y then x :: y :: ys else y :: insertSorted x ys

/-- sorted(list(...)) by insertion sort. -/
def sortStrs (l : List Str) : List Str := l.foldr insertSorted []

/-- DataService.get_unmatched_analysis result (models.UnmatchedAnalysis
minus the timestamp and the derived floating-point match_rate, which no
claim concerns). -/
structure UnmatchedAnalysis where
  total_db1_items : Nat
  total_db2_items : Nat
  matched_items : Nat
  db1_only_items : Nat
  db2_only_items : Nat
  db1_only_keys : List Str
  db2_only_keys : List Str
deriving DecidableEq

/-- DataService.get_unmatched_analysis (src/src/services/data_service.py
lines 263-304), over the two primary-link columns given as value lists. -/
def get_unmatched_analysis (db1 db2 : List RawValue) : UnmatchedAnalysis :=
  UnmatchedAnalysis.mk (keySetOf db1).length (keySetOf db2).length
    (matchedKeys db1 db2).length (onlyKeys db1 db2).length (onlyKeys db2 db1).length
    (sortStrs (onlyKeys db1 db2)) (sortStrs (onlyKeys db2 db1))

/-- A deduplicated list has the length of its underlying finite set. -/
theorem dedup_length_eq_card (l : List Str) :
    l.dedup.length = l.toFinset.card := by
  rw [← List.toFinset_card_of_nodup (List.nodup_dedup l)]
  congr 1
  ext x
  simp [List.mem_toFinset, List.mem_dedup]

/-- The intersection count computed on deduplicated lists is the card of
the Finset intersection. -/
theorem filter_mem_dedup_card (l1 l2 : List Str) :
    ((l1.dedup).filter (fun k => decide (k ∈ l2.dedup))).length
      = (l1.toFinset ∩ l2.toFinset).card := by
  rw [← List.toFinset_card_of_nodup ((List.nodup_dedup l1).filter _)]
  congr 1
  ext x
  simp [List.mem_filter, List.mem_dedup, List.mem_toFinset, Finset.mem_inter]

/-- The difference count computed on deduplicated lists is the card of
the Finset difference. -/
theorem filter_not_mem_dedup_card (l1 l2 : List Str) :
    ((l1.dedup).filter (fun k => decide (k ∉ l2.dedup))).length
      = (l1.toFinset \ l2.toFinset).card := by
  rw [← List.toFinset_card_of_nodup ((List.nodup_dedup l1).filter _)]
  congr 1
  ext x
  simp [List.mem_filter, List.mem_dedup, List.mem_toFinset, Finset.mem_sdiff]

/-- Insertion preserves the members of the list. -/
theorem mem_insertSorted {x y : Str} {l : List Str} :
    x ∈ insertSorted y l ↔ x = y ∨ x ∈ l := by
  induction l with
  | nil => simp [insertSorted]
  | cons z zs ih =>
    unfold insertSorted
    by_cases h : strLe y z = true
    · rw [if_pos h]
      simp
    · rw [if_neg h]
      simp only [List.mem_cons, ih]
      tauto

/-- Sorting preserves the members of the list. -/
theorem mem_sortStrs {x : Str} {l : List Str} :
    x ∈ sortStrs l ↔ x ∈ l := by
  induction l with
  | nil => simp [sortStrs]
  | cons y ys ih =>
    show x ∈ insertSorted y (sortStrs ys) ↔ _
    rw [mem_insertSorted, ih]
    simp

/-- The key set claim C6 prescribes: the non-null NormalizedKeys of the
side's primary-link column per the section 4.1 normalize function
(blank-derived keys excluded, as normalize maps them to None). -/
def claimKeySetC6 (rows : List RawValue) : List Str :=
  (rows.filterMap (fun r => normalize_key (some (rawStr r)))).dedup

/-- The matched set claim C6 prescribes: intersection of the two
normalize-based key sets. -/
def claimMatchedC6 (db1 db2 : List RawValue) : List Str :=
  (claimKeySetC6 db1).filter (fun k => decide (k ∈ claimKeySetC6 db2))

/-- C6 counterexample: the code keys on strip-then-uppercase values, not
on section 4.1 NormalizedKeys, so "5.0" on side A and "5" on side B do
not match (the claim's normalize-based sets make them match), and the
whitespace-only value yields the blank key "" which the code includes
although the claim excludes blank-derived keys by default. -/
theorem unmatched_analysis_cex :
    (get_unmatched_analysis [RawValue.str (lit "5.0")] [RawValue.str (lit "5")]).matched_items = 0 ∧
    (claimMatchedC6 [RawValue.str (lit "5.0")] [RawValue.str (lit "5")]).length = 1 ∧
    keySetOf [RawValue.str (lit " ")] = [lit ""] ∧
    claimKeySetC6 [RawValue.str (lit " ")] = [] := by decide

/-- C6 amended: keysA and keysB are the sets of trimmed-and-uppercased
string forms of each side's non-null primary-link values (nulls dropped;
blank-derived keys included; no normalize step and no include-empty flag
exist), and the report's counts and only-key lists are exactly the
cardinalities and members of the intersection and the two set
differences of those key sets. -/
theorem unmatched_analysis_amended (db1 db2 : List RawValue) :
    (∀ k : Str, k ∈ (db1.filterMap upperStripKey).toFinset ↔
      ∃ r ∈ db1, upperStripKey r = some k) ∧
    (get_unmatched_analysis db1 db2).total_db1_items
        = (db1.filterMap upperStripKey).toFinset.card ∧
    (get_unmatched_analysis db1 db2).total_db2_items
        = (db2.filterMap upperStripKey).toFinset.card ∧
    (get_unmatched_analysis db1 db2).matched_items
        = ((db1.filterMap upperStripKey).toFinset ∩
            (db2.filterMap upperStripKey).toFinset).card ∧
    (get_unmatched_analysis db1 db2).db1_only_items
        = ((db1.filterMap upperStripKey).toFinset \
            (db2.filterMap upperStripKey).toFinset).card ∧
    (get_unmatched_analysis db1 db2).db2_only_items
        = ((db2.filterMap upperStripKey).toFinset \
            (db1.filterMap upperStripKey).toFinset).card ∧
    (∀ k : Str, k ∈ (get_unmatched_analysis db1 db2).db1_only_keys ↔
      k ∈ (db1.filterMap upperStripKey).toFinset \
          (db2.filterMap upperStripKey).toFinset) ∧
    (∀ k : Str, k ∈ (get_unmatched_analysis db1 db2).db2_only_keys ↔
      k ∈ (db2.filterMap upperStripKey).toFinset \
          (db1.filterMap upperStripKey).toFinset) := by
  refine ⟨?_, ?_, ?_, ?_, ?_, ?_, ?_, ?_⟩
  · intro k
    simp [List.mem_toFinset, List.mem_filterMap]
  · exact dedup_length_eq_card _
  · exact dedup_length_eq_card _
  · exact filter_mem_dedup_card _ _
  · exact filter_not_mem_dedup_card _ _
  · exact filter_not_mem_dedup_card _ _
  · intro k
    show k ∈ sortStrs (onlyKeys db1 db2) ↔ _
    rw [mem_sortStrs]
    unfold onlyKeys keySetOf
    simp [List.mem_filter, List.mem_dedup, List.mem_toFinset, Finset.mem_sdiff]
  · intro k
    show k ∈ sortStrs (onlyKeys db2 db1) ↔ _
    rw [mem_sortStrs]
    unfold onlyKeys keySetOf
    simp [List.mem_filter, List.mem_dedup, List.mem_toFinset, Finset.mem_sdiff]

/-- An exactly-parsed decimal literal: the value num / 10 ^ scale.
pd.to_numeric parses to binary floats; the decimal literals the claims
exercise are modeled exactly. -/
structure PyDecimal where
  num : Int
  scale : Nat
deriving DecidableEq

/-- Rational value of a parsed decimal. -/
def decVal (d : PyDecimal) : ℚ := (d.num : ℚ) / (10 : ℚ) ^ d.scale

/-- Numeric value of a digit string, most significant digit first. -/
def digitsVal (l : Str) : Nat :=
  l.foldl (fun a c => 10 * a + (c.toNat - 48)) 0

/-- Parse an unsigned decimal: digits with at most one point, at least
one digit overall. -/
def parseDecimal (u : Str) : Option PyDecimal :=
  match u.dropWhile (fun c => !(c = '.')) with
  | [] =>
    if (u.all Char.isDigit) && !u.isEmpty then some (PyDecimal.mk (digitsVal u) 0)
    else none
  | _ :: fp =>
    if ((u.takeWhile (fun c => !(c = '.'))).all Char.isDigit) && (fp.all Char.isDigit)
        && !((u.takeWhile (fun c => !(c = '.'))).isEmpty && fp.isEmpty) then
      some (PyDecimal.mk
        (digitsVal (u.takeWhile (fun c => !(c = '.'))) * 10 ^ fp.length + digitsVal fp)
        fp.length)
    else none

/-- Negation of a parsed decimal. -/
def decNeg (d : PyDecimal) : PyDecimal := PyDecimal.mk (-d.num) d.scale

/-- pd.to_numeric(cell, errors='coerce'): None (NaN) for null cells and
unparsable strings; the exact value for decimal literals with an optional
sign.  (Exponent and other float syntaxes are not exercised by any claim
and are not modeled.) -/
def toNumeric (v : RawValue) : Option PyDecimal :=
  match v with
  | RawValue.na => none
  | RawValue.str s =>
    match pyStrip s with
    | '-' :: u => (parseDecimal u).map decNeg
    | '+' :: u => parseDecimal u
    | t => parseDecimal t

/-- np.isclose(a, b, rtol=0, atol=1e-9) on exact decimals, cleared of
denominators: |num_a 10^scale_b - num_b 10^scale_a| * 10^9 is compared
with 10^(scale_a + scale_b). -/
def closeTol (a b : PyDecimal) : Bool :=
  decide ((a.num * Int.ofNat (10 ^ b.scale)
    - b.num * Int.ofNat (10 ^ a.scale)).natAbs * 1000000000
      ≤ 10 ^ (a.scale + b.scale))

/-- BulkEditorPage._normalize_text_series followed by .str.lower()
(src/gui/bulk_editor_page.py lines 1104-1108 and callers): astype(str),
strip, exact replacement of "nan"/"None"/"NaN" cells by "", lowercase. -/
def normalizeTextValue (v : RawValue) : Str :=
  (if pyStrip (rawStr v) = lit "nan" ∨ pyStrip (rawStr v) = lit "None"
      ∨ pyStrip (rawStr v) = lit "NaN" then []
   else pyStrip (rawStr v)).map Char.toLower

/-- BulkEditorPage._series_equal_with_tolerance (src/gui/bulk_editor_page.py
lines 1110-1126), elementwise: when both cells coerce numerically compare
with absolute tolerance 1e-9, otherwise compare the normalized texts. -/
def fields_match (l r : RawValue) : Bool :=
  match toNumeric l, toNumeric r with
  | some a, some b => closeTol a b
  | _, _ => decide (normalizeTextValue l = normalizeTextValue r)

example : toNumeric (RawValue.str (lit "10.01")) = some (PyDecimal.mk 1001 2) := by decide
example : toNumeric (RawValue.str (lit "-3")) = some (PyDecimal.mk (-3) 0) := by decide
example : toNumeric (RawValue.str (lit "Widget")) = none := by decide
example : fields_match (RawValue.str (lit "10")) (RawValue.str (lit "10.0000000001")) = true := by decide

/-- The cleared-denominator comparison is exactly the absolute-tolerance
comparison of the rational values. -/
theorem closeTol_iff (a b : PyDecimal) :
    closeTol a b = true ↔ |decVal a - decVal b| ≤ 1 / 1000000000 := by
  unfold closeTol decVal
  rw [decide_eq_true_eq]
  have hpa : (0 : ℚ) < (10 : ℚ) ^ a.scale := by positivity
  have hpb : (0 : ℚ) < (10 : ℚ) ^ b.scale := by positivity
  have hpab : (0 : ℚ) < (10 : ℚ) ^ (a.scale + b.scale) := by positivity
  have hdiff : (a.num : ℚ) / (10 : ℚ) ^ a.scale - (b.num : ℚ) / (10 : ℚ) ^ b.scale
      = ((a.num * Int.ofNat (10 ^ b.scale) - b.num * Int.ofNat (10 ^ a.scale) : Int) : ℚ)
        / (10 : ℚ) ^ (a.scale + b.scale) := by
    have ha' : ((10 : ℚ) ^ a.scale) ≠ 0 := ne_of_gt hpa
    have hb' : ((10 : ℚ) ^ b.scale) ≠ 0 := ne_of_gt hpb
    push_cast
    rw [pow_add]
    field_simp
    ring
  rw [hdiff, abs_div, abs_of_pos hpab,
    div_le_div_iff₀ hpab (by norm_num : (0 : ℚ) < 1000000000), one_mul,
    ← Int.cast_abs, Int.abs_eq_natAbs]
  constructor
  · intro h
    exact_mod_cast h
  · intro h
    exact_mod_cast h

/-- C9: field comparison first coerces both values numerically; when both
coerce it declares them equal exactly when the absolute difference is
within 1e-9 (no relative tolerance); otherwise it compares the
trimmed, case-folded, null-replaced strings.  In particular "10" matches
"10.0000000001", "10" does not match "10.01", and "Widget" matches
"widget ". -/
theorem fields_match_spec :
    (∀ (l r : RawValue) (a b : PyDecimal),
      toNumeric l = some a → toNumeric r = some b →
      (fields_match l r = true ↔ |decVal a - decVal b| ≤ 1 / 1000000000)) ∧
    (∀ l r : RawValue, toNumeric l = none ∨ toNumeric r = none →
      (fields_match l r = true ↔ normalizeTextValue l = normalizeTextValue r)) ∧
    fields_match (RawValue.str (lit "10")) (RawValue.str (lit "10.0000000001")) = true ∧
    fields_match (RawValue.str (lit "10")) (RawValue.str (lit "10.01")) = false ∧
    fields_match (RawValue.str (lit "Widget")) (RawValue.str (lit "widget ")) = true := by
  refine ⟨?_, ?_, by decide, by decide, by decide⟩
  · intro l r a b hl hr
    unfold fields_match
    rw [hl, hr]
    exact closeTol_iff a b
  · intro l r h
    unfold fields_match
    rcases h with h | h
    · rw [h]
      cases toNumeric r <;> exact decide_eq_true_iff
    · rw [h]
      cases toNumeric l <;> exact decide_eq_true_iff

/-- Witness for C9 applying the quantified tolerance clause at "1" and
"1". -/
theorem fields_match_spec_witness :
    fields_match (RawValue.str (lit "1")) (RawValue.str (lit "1")) = true := by
  have h := fields_match_spec.1 (RawValue.str (lit "1")) (RawValue.str (lit "1"))
    (PyDecimal.mk 1 0) (PyDecimal.mk 1 0) (by decide) (by decide)
  refine h.mpr ?_
  simp [decVal]

/-- The local normalize_key of DataService._combine_data
(src/src/services/data_service.py lines 190-198): null values map to the
EMPTY STRING (not None), otherwise strip, uppercase, and drop one
trailing ".0". -/
def ds_normalize_key (v : RawValue) : Str :=
  match v with
  | RawValue.na => []
  | RawValue.str s => strip0 ((pyStrip s).map Char.toUpper)

/-- The side preparation of DataService._combine_data: every record is
keyed (none are dropped), then duplicates are removed keeping the first
occurrence. -/
def dsKeyRows (rows : List SideRow) : List (Str × SideRow) :=
  dedupByKey (rows.map (fun r => (ds_normalize_key r.primary, r)))

/-- DataService._combine_data (src/src/services/data_service.py lines
160-234): key both loaded sides, deduplicate, outer join on
NormalizedKey.  It runs only when both sides are loaded. -/
def ds_combine_data (db1 db2 : List SideRow) : List CombRow :=
  outerMerge (dsKeyRows db1) (dsKeyRows db2)

/-- C4 counterexample: in the cited DataService._combine_data variant a
record with a null identifier is NOT dropped — it receives the
empty-string NormalizedKey and produces a Combined View row, so the
claim's "no row of the Combined View derives from an identity-less
record, for every input" fails there. -/
theorem ds_combine_keeps_identityless_cex :
    ds_combine_data [SideRow.mk RawValue.na []] []
      = [CombRow.mk [] (some (SideRow.mk RawValue.na [])) none] := by decide
